import Mathlib

/-!
Verification of the TQQQ grid-trading bot (`tqqq_grid_bot.py`, `db_tqqq.py`)
against its natural-language specification.

The bot's price arithmetic is Python `float` (IEEE 754 binary64) with
`round(x, 2)` applied after multiplications.  Because several claims hinge on
exact cent values (e.g. whether `round(50 * 1.0025, 2)` is 50.12 or 50.13),
we model binary64 values as rationals and each arithmetic step with correct
rounding: `fl` rounds a rational to the nearest binary64 value (ties to even),
`fmul`/`fdiv` are correctly-rounded multiplication/division, and `pyround2`
is CPython's `round(x, 2)` (correctly-rounded decimal rounding, ties to even
on the exact binary value, converted back to the nearest binary64).
Exponent range is unbounded (no overflow/subnormals); all prices handled by
the bot are in a range where this coincides with binary64.
-/

namespace TqqqBot

/-- Round a rational to the nearest integer, ties to even. -/
def rneInt (q : ℚ) : ℤ :=
  let f : ℤ := ⌊q⌋
  let r : ℚ := q - f
  if r < 1/2 then f
  else if 1/2 < r then f + 1
  else if f % 2 = 0 then f else f + 1

/-- `2 ^ k` as a rational, for an integer exponent.  (The power is computed
in `ℕ` and cast, which evaluates efficiently.) -/
def pow2 (k : ℤ) : ℚ :=
  if 0 ≤ k then ((2 ^ k.toNat : ℕ) : ℚ) else (((2 ^ (-k).toNat : ℕ) : ℚ))⁻¹

/-- `Nat.log2` re-implemented by structural recursion on a fuel argument
(`n` itself suffices, since `log2 n ≤ n`), so that concrete proofs can
evaluate it by kernel reduction. -/
def log2F : ℕ → ℕ → ℕ
  | 0, _ => 0
  | fuel + 1, n => if 2 ≤ n then log2F fuel (n / 2) + 1 else 0

/-- Base-2 logarithm, rounded down; `log2N n = Nat.log2 n`. -/
def log2N (n : ℕ) : ℕ := log2F n n

/-- Floor of the base-2 logarithm of a positive rational: the unique `e`
with `2 ^ e ≤ q < 2 ^ (e + 1)`.  (Arbitrary on `q ≤ 0`.) -/
def ilog2 (q : ℚ) : ℤ :=
  let B : ℕ := log2N q.den + 2
  (log2N (⌊q * ((2 ^ B : ℕ) : ℚ)⌋).toNat : ℤ) - B

/-- Round a positive rational to the nearest binary64 value (53-bit
significand, ties to even, unbounded exponent). -/
def flPos (q : ℚ) : ℚ :=
  let e : ℤ := ilog2 q
  (rneInt (q * pow2 (52 - e)) : ℚ) * pow2 (e - 52)

/-- Round a rational to the nearest binary64 value. -/
def fl (q : ℚ) : ℚ :=
  if q = 0 then 0 else if q < 0 then -flPos (-q) else flPos q

/-- Correctly-rounded binary64 multiplication. -/
def fmul (a b : ℚ) : ℚ := fl (a * b)

/-- Correctly-rounded binary64 division. -/
def fdiv (a b : ℚ) : ℚ := fl (a / b)

/-- CPython's `round(x, 2)` on a binary64 value `x`: round the exact value of
`x` to two decimal places (ties to even), then return the nearest binary64. -/
def pyround2 (x : ℚ) : ℚ := fl ((rneInt (x * 100) : ℚ) / 100)

/-! ## Configuration constants (`tqqq_grid_bot.py`, section 1)

Each Python float literal is embedded as the binary64 value it denotes. -/

/-- `PROFIT_TARGET_PERCENT = 1.01` (1% profit multiplier). -/
def PROFIT_TARGET_PERCENT : ℚ := fl (101 / 100)

/-- `BUY_TRIGGER_PERCENT = 0.99` (1% drop multiplier). -/
def BUY_TRIGGER_PERCENT : ℚ := fl (99 / 100)

/-- `L0_BUY_BUFFER = 1.0025` (0.25% buffer for the Level 0 LMT order). -/
def L0_BUY_BUFFER : ℚ := fl (401 / 400)

/-- `FUTURE_BUY_QUEUE_DEPTH = 3`. -/
def FUTURE_BUY_QUEUE_DEPTH : ℕ := 3

/-! ## Trade ledger (`db_tqqq.py`)

The `trades` table is a list of rows; the SQLite `id` of a row is its list
position, and `lastrowid` after an insert at the end is the new position. -/

/-- Row status: `CHECK(status IN ('OPEN', 'CLOSED'))`. -/
inductive TradeStatus where
  | OPEN
  | CLOSED
deriving DecidableEq

/-- One row of the `trades` table (schema created in `db_tqqq.py` lines
26-48).  Timestamps are stored as opaque integers. -/
structure TradeRow where
  level : ℤ
  buy_order_id : ℤ
  buy_quantity : ℚ
  buy_price : ℚ
  buy_timestamp : ℤ
  status : TradeStatus
  sell_order_id : Option ℤ
  sell_quantity : Option ℚ
  sell_price : Option ℚ
  sell_timestamp : Option ℤ
deriving DecidableEq

/-- `create_buy_trade` (`db_tqqq.py` lines 56-85): inserts a new `OPEN` row and
returns its id, or — when the `UNIQUE` constraint on `buy_order_id` fires
(`sqlite3.IntegrityError`) — leaves the table unchanged and returns `none`. -/
def create_buy_trade (db : List TradeRow) (level : ℤ) (buy_order_id : ℤ)
    (quantity price : ℚ) (timestamp : ℤ) : List TradeRow × Option ℕ :=
  if db.any (fun r => r.buy_order_id == buy_order_id) then
    (db, none)
  else
    (db ++ [⟨level, buy_order_id, quantity, price, timestamp,
             TradeStatus.OPEN, none, none, none, none⟩], some db.length)

/-- Set `sell_order_id` on the row at position `i` (the SQL
`UPDATE trades SET sell_order_id = ? WHERE id = ?`). -/
def setSellAt : List TradeRow → ℕ → ℤ → List TradeRow
  | [], _, _ => []
  | r :: rs, 0, sid => { r with sell_order_id := some sid } :: rs
  | r :: rs, n + 1, sid => r :: setSellAt rs n sid

/-- `update_trade_with_sell_order` (`db_tqqq.py` lines 87-107): attaches a sell
order id to row `db_id`.  A `UNIQUE` violation on `sell_order_id` raises, is
caught, and leaves the table unchanged (the function does not re-raise). -/
def update_trade_with_sell_order (db : List TradeRow) (db_id : ℕ)
    (sell_order_id : ℤ) : List TradeRow :=
  if db.any (fun r => r.sell_order_id == some sell_order_id) then db
  else setSellAt db db_id sell_order_id

/-- `close_trade` (`db_tqqq.py` lines 109-131): `UPDATE trades SET status =
'CLOSED', ... WHERE sell_order_id = ?`.  Rows not matching are untouched; a
missing match updates nothing and raises no error. -/
def close_trade (db : List TradeRow) (sell_order_id : ℤ)
    (sell_quantity sell_price : ℚ) (sell_timestamp : ℤ) : List TradeRow :=
  db.map fun r =>
    if r.sell_order_id == some sell_order_id then
      { r with status := TradeStatus.CLOSED,
               sell_quantity := some sell_quantity,
               sell_price := some sell_price,
               sell_timestamp := some sell_timestamp }
    else r

/-- `get_open_trades` (`db_tqqq.py` lines 133-141). -/
def get_open_trades (db : List TradeRow) : List TradeRow :=
  db.filter fun r => r.status == TradeStatus.OPEN

/-- `get_trade_by_sell_order_id` (`db_tqqq.py` lines 143-151): `fetchone` on
`SELECT * FROM trades WHERE sell_order_id = ?` — the first matching row. -/
def get_trade_by_sell_order_id (db : List TradeRow) (sell_order_id : ℤ) :
    Option TradeRow :=
  db.find? fun r => r.sell_order_id == some sell_order_id

/-! ## The grid bot (`tqqq_grid_bot.py`)

Orders are modelled by the fields the bot sets; broker order ids are inputs
(TWS assigns them).  The lot map is the `shares_to_buy` column indexed by
`level` (the CSV levels are the dense indices 0,1,2,...). -/

/-- `Lot` (`tqqq_grid_bot.py` lines 53-74).  The constructor derives
`sell_target_price = round(purchase_price * PROFIT_TARGET_PERCENT, 2)`. -/
structure Lot where
  level : ℕ
  quantity : ℤ
  purchase_price : ℚ
  sell_target_price : ℚ
  sell_order_id : Option ℤ
deriving DecidableEq

/-- `Lot.__init__` (lines 55-60). -/
def Lot.init (level : ℕ) (quantity : ℤ) (purchase_price : ℚ)
    (sell_order_id : Option ℤ) : Lot :=
  ⟨level, quantity, purchase_price,
   pyround2 (fmul purchase_price PROFIT_TARGET_PERCENT), sell_order_id⟩

/-- One entry of the saved-state JSON file. -/
structure SavedLot where
  level : ℕ
  quantity : ℤ
  purchase_price : ℚ
  sell_order_id : Option ℤ
deriving DecidableEq

/-- `Lot.from_dict` (lines 66-74): re-runs the constructor, so the saved
`sell_target_price` is recomputed rather than trusted. -/
def Lot.from_dict (d : SavedLot) : Lot :=
  Lot.init d.level d.quantity d.purchase_price d.sell_order_id

/-- Order side. -/
inductive OrderAction where
  | BUY
  | SELL
deriving DecidableEq

/-- An order submitted by the bot.  `conditionPrice` is the attached
`PriceCondition` trigger (set only for conditional buys; `isMore=False`,
so the order activates once price is at or below the trigger). -/
structure Order where
  action : OrderAction
  totalQuantity : ℚ
  lmtPrice : ℚ
  conditionPrice : Option ℚ
deriving DecidableEq

/-- An order the broker reports as open (`reqAllOpenOrders`), restricted to
the fields the bot inspects. -/
structure OpenOrder where
  orderId : ℤ
  isOurContract : Bool
  action : OrderAction
  lmtPrice : ℚ
deriving DecidableEq

/-- In-memory bot state: the lot map, the open-lot inventory, and the two
scalars `next_level` and `buy_reference_price`. -/
structure BotState where
  lot_map : List ℤ
  lot_inventory : List Lot
  next_level : ℕ
  buy_reference_price : Option ℚ
deriving DecidableEq

/-- `calculate_next_level` (lines 124-129): 0 on an empty inventory, else
(max open level) + 1. -/
def calculate_next_level (lot_inventory : List Lot) : ℕ :=
  match (lot_inventory.map Lot.level).max? with
  | some m => m + 1
  | none => 0

/-- One unrounded float multiplication by `BUY_TRIGGER_PERCENT` (the body of
the loop in `find_reference_price`, line 141). -/
def compound1 (price : ℚ) : ℚ := fmul price BUY_TRIGGER_PERCENT

/-- The fill handler's reference-price update for a level above 0 (line 387):
`round(self.buy_reference_price * BUY_TRIGGER_PERCENT, 2)`. -/
def refStep (price : ℚ) : ℚ := pyround2 (compound1 price)

/-- `find_reference_price` (lines 131-146): `None` when `next_level = 0`;
otherwise take the level-0 lot's purchase price, multiply it by
`BUY_TRIGGER_PERCENT` `next_level - 1` times (no intermediate rounding), and
round the final result to cents.  `None` if no level-0 lot exists. -/
def find_reference_price (lot_inventory : List Lot) (next_level : ℕ) :
    Option ℚ :=
  if next_level = 0 then none
  else
    match lot_inventory.find? (fun lot => lot.level == 0) with
    | some l0 => some (pyround2 (compound1^[next_level - 1] l0.purchase_price))
    | none => none

/-- Bot startup (`__init__`, lines 77-85): load the saved inventory (via
`Lot.from_dict`), then derive `next_level` and `buy_reference_price`. -/
def loadBot (lot_map : List ℤ) (saved : List SavedLot) : BotState :=
  let inv := saved.map Lot.from_dict
  let nl := calculate_next_level inv
  ⟨lot_map, inv, nl, find_reference_price inv nl⟩

/-- `place_sell_order` (lines 413-427): a GTC SELL limit order at the lot's
`sell_target_price` for the lot's quantity. -/
def place_sell_order (lot : Lot) : Order :=
  ⟨OrderAction.SELL, (lot.quantity : ℚ), lot.sell_target_price, none⟩

/-- `execute_buy_level_0` (lines 318-346): a single BUY limit order for the
level-0 quantity at `round(current_price * L0_BUY_BUFFER, 2)`. -/
def execute_buy_level_0 (lot_map : List ℤ) (current_price : ℚ) : Order :=
  ⟨OrderAction.BUY, ((lot_map.headD 0 : ℤ) : ℚ),
   pyround2 (fmul current_price L0_BUY_BUFFER), none⟩

/-- `on_pending_ticker` (lines 305-316) guard: the Level 0 buy is attempted
only for a valid positive price and only while `next_level = 0` (also
re-checked inside `execute_buy_level_0`, line 325). -/
def on_price_tick (s : BotState) (current_price : ℚ) : Option Order :=
  if 0 < current_price ∧ s.next_level = 0 then
    some (execute_buy_level_0 s.lot_map current_price)
  else none

/-- `place_conditional_buy` (lines 462-491): a BUY limit order whose limit
price equals its price-condition trigger. -/
def place_conditional_buy (quantity : ℤ) (trigger_price : ℚ) : Order :=
  ⟨OrderAction.BUY, (quantity : ℚ), trigger_price, some trigger_price⟩

/-- The cancellation stage of `place_future_buy_queue` (lines 437-441): every
open BUY order for the bot's contract is cancelled — there is no exemption
parameter. -/
def place_future_buy_queue_cancels (open_orders : List OpenOrder) : List ℤ :=
  (open_orders.filter fun o =>
    o.isOurContract && (o.action == OrderAction.BUY)).map OpenOrder.orderId

/-- The placement loop of `place_future_buy_queue` (lines 446-460): up to
`depth` conditional buys, breaking once the level leaves the lot map; each
trigger is the previous one (starting from the reference price) times
`BUY_TRIGGER_PERCENT`, rounded to cents. -/
def place_future_buy_queue_loop (lot_map : List ℤ) :
    ℕ → ℕ → ℚ → List Order
  | 0, _, _ => []
  | depth + 1, level, current_trigger_price =>
    if h : level < lot_map.length then
      let trigger_price := refStep current_trigger_price
      place_conditional_buy (lot_map.get ⟨level, h⟩) trigger_price ::
        place_future_buy_queue_loop lot_map depth (level + 1) trigger_price
    else []

/-- `place_future_buy_queue` (lines 429-460), placement stage, given the
bot's `next_level` and (non-null) `buy_reference_price`. -/
def place_future_buy_queue (lot_map : List ℤ) (next_level : ℕ) (ref : ℚ) :
    List Order :=
  place_future_buy_queue_loop lot_map FUTURE_BUY_QUEUE_DEPTH next_level ref

/-- The BUY branch of `on_fill` (lines 366-392) as a state transformer.  The
broker-assigned id of the protective sell is the input `sellOrderId`.  The
emitted protective sell order is returned.

When `next_level > 0` but `buy_reference_price` is `None`, line 387 raises
`TypeError` (`None * 0.99`); `on_fill`'s `except` swallows it, so the lot has
already been appended and saved (lines 383-384) but `next_level` and the
reference price stay untouched and no queue refresh happens. -/
def on_fill_buy (s : BotState) (quantity : ℤ) (fill_price : ℚ)
    (sellOrderId : ℤ) : BotState × Order :=
  let level := s.next_level
  let lot0 := Lot.init level quantity fill_price none
  let sell := place_sell_order lot0
  let lot := { lot0 with sell_order_id := some sellOrderId }
  let inv := s.lot_inventory ++ [lot]
  if level = 0 then
    ({ s with lot_inventory := inv, next_level := level + 1,
              buy_reference_price := some fill_price }, sell)
  else
    match s.buy_reference_price with
    | some r =>
      ({ s with lot_inventory := inv, next_level := level + 1,
                buy_reference_price := some (refStep r) }, sell)
    | none => ({ s with lot_inventory := inv }, sell)

/-- The SELL branch of `on_fill` (lines 394-405): remove the lot whose
`sell_order_id` matches, or log and ignore.  The boolean reports whether the
inventory changed (and hence whether `save_state` ran). -/
def on_fill_sell (s : BotState) (orderId : ℤ) : BotState × Bool :=
  match s.lot_inventory.find? (fun lot => lot.sell_order_id == some orderId) with
  | some lot => ({ s with lot_inventory := s.lot_inventory.erase lot }, true)
  | none => (s, false)

/-- States the bot can be in: any loaded state, closed under fill events. -/
inductive Reachable : BotState → Prop where
  | load : ∀ (lot_map : List ℤ) (saved : List SavedLot),
      Reachable (loadBot lot_map saved)
  | buy : ∀ s quantity fill_price sellOrderId, Reachable s →
      Reachable (on_fill_buy s quantity fill_price sellOrderId).1
  | sell : ∀ s orderId, Reachable s →
      Reachable (on_fill_sell s orderId).1

/-! ## The ledger-integrated engine, modelled from the spec

The spec (sections 4.3-4.4, 9) describes the richest variant of the strategy:
a fill processor and a startup reconciliation built on the durable trade
ledger.  `src/` contains the ledger itself (`db_tqqq.py`, with no caller among
the source files) and a simpler bot variant, but not the ledger-integrated
engine; the definitions below model that missing engine from the spec's
words, on top of the embedded `db_tqqq.py` operations. -/

/-- A lot of the ledger-integrated engine (spec section 3): level, quantity,
purchase price, derived sell target, attached sell order id.  The level is an
integer so that the reconciliation sentinel level can sit below the ladder. -/
structure SpecLot where
  level : ℤ
  quantity : ℚ
  purchase_price : ℚ
  sell_target_price : ℚ
  sell_order_id : Option ℤ
deriving DecidableEq

/-- Modelled from the spec: engine state of section 3 — the durable ledger,
the derived lot inventory, `next_level` and `buy_reference_price`. -/
structure SpecState where
  ledger : List TradeRow
  inventory : List SpecLot
  next_level : ℤ
  buy_reference_price : Option ℚ
deriving DecidableEq

/-- Modelled from the spec: the BUY-fill transition of section 4.4 (steps
a-g) for order `O` at level `L = next_level`, with the broker-assigned id of
the protective sell given as `sellId`.  Step a discards when a lot already
occupies `L`; step b aborts when `create_buy_trade` reports a duplicate
`buy_order_id`; otherwise the protective sell is placed (step c), the sell id
attached and the lot appended (step d), and the reference price and
`next_level` updated (steps e-f).  The queue refresh of step g is modelled
separately.  Returned orders: the protective sell, when placed. -/
def spec_on_buy_fill (s : SpecState) (O : ℤ) (qty price : ℚ) (ts : ℤ)
    (sellId : ℤ) : SpecState × List Order :=
  let L := s.next_level
  if s.inventory.any (fun lot => lot.level == L) then (s, [])
  else
    match create_buy_trade s.ledger L O qty price ts with
    | (_, none) => (s, [])
    | (db, some row_id) =>
      let target := pyround2 (fmul price PROFIT_TARGET_PERCENT)
      let db2 := update_trade_with_sell_order db row_id sellId
      let lot : SpecLot := ⟨L, qty, price, target, some sellId⟩
      ({ ledger := db2,
         inventory := s.inventory ++ [lot],
         next_level := L + 1,
         buy_reference_price :=
           if L = 0 then some price else s.buy_reference_price.map refStep },
       [⟨OrderAction.SELL, qty, target, none⟩])

/-- A SELL order the broker reports open, as consumed by reconciliation. -/
structure BrokerSellOrder where
  orderId : ℤ
  quantity : ℚ
  lmtPrice : ℚ
deriving DecidableEq

/-- Modelled from the spec: the inverse quantity-to-level lookup of section
4.3 step 2 — the first ladder level configured with exactly this quantity. -/
def inverse_level_lookup (ladder : List ℤ) (qty : ℚ) : Option ℕ :=
  ladder.findIdx? fun q => ((q : ℚ) == qty)

/-- Number of ledger rows holding a synthetic (negative) buy order id. -/
def negCount (db : List TradeRow) : ℕ :=
  (db.filter fun r => decide (r.buy_order_id < 0)).length

/-- Modelled from the spec: the next synthetic negative order id — one below
the synthetic ids already present in the ledger. -/
def next_synthetic_id (db : List TradeRow) : ℤ := -(1 + (negCount db : ℤ))

/-- Modelled from the spec: the tolerance of section 4.3 step 4 ("a small
tolerance" on the broker-position divergence; no numeric value is given). -/
def TOLERANCE : ℚ := 1 / 100

/-- Modelled from the spec: the sentinel level at which reconciliation books
an orphan lot (section 4.3 step 4), below every ladder level. -/
def SENTINEL_LEVEL : ℤ := -1

/-- Modelled from the spec: section 4.3 step 2.  For each broker open SELL
with no ledger row (via `get_trade_by_sell_order_id`), recover the implied
purchase price by inverting the profit-target ratio, map the quantity back to
a ladder level, record a buy row under a synthetic negative id and attach the
sell id.  A quantity matching no ladder level is fatal (section 4.3, last
paragraph), as is a synthetic-id collision. -/
def synth_rows_for_sells (ladder : List ℤ) (now : ℤ) :
    List TradeRow → List BrokerSellOrder → Except String (List TradeRow)
  | db, [] => Except.ok db
  | db, o :: rest =>
    match get_trade_by_sell_order_id db o.orderId with
    | some _ => synth_rows_for_sells ladder now db rest
    | none =>
      match inverse_level_lookup ladder o.quantity with
      | none => Except.error "broker order quantity matches no ladder level"
      | some level =>
        let purchase := fdiv o.lmtPrice PROFIT_TARGET_PERCENT
        match create_buy_trade db (level : ℤ) (next_synthetic_id db)
            o.quantity purchase now with
        | (_, none) => Except.error "synthetic order id collision"
        | (db2, some row_id) =>
          synth_rows_for_sells ladder now
            (update_trade_with_sell_order db2 row_id o.orderId) rest

/-- Modelled from the spec: section 4.3 step 3.  Every ledger row still OPEN
whose sell order id is absent from the broker's open-sell set is treated as
filled while offline: closed with the buy quantity, a zero price, and the
current time. -/
def close_offline_filled (brokerSellIds : List ℤ) (now : ℤ)
    (db : List TradeRow) : List TradeRow :=
  db.map fun r =>
    let absent :=
      match r.sell_order_id with
      | some sid => !(brokerSellIds.contains sid)
      | none => true
    if r.status == TradeStatus.OPEN && absent then
      { r with status := TradeStatus.CLOSED,
               sell_quantity := some r.buy_quantity,
               sell_price := some 0,
               sell_timestamp := some now }
    else r

/-- Modelled from the spec: section 4.3 steps 5-7 — rebuild the inventory
from the OPEN ledger rows, set `next_level` to (max open level) + 1 or 0, and
recompute the reference price by compounding the level-0 purchase price. -/
def spec_build_state (db : List TradeRow) : SpecState :=
  let openRows := get_open_trades db
  let inventory : List SpecLot := openRows.map fun r =>
    ⟨r.level, r.buy_quantity, r.buy_price,
     pyround2 (fmul r.buy_price PROFIT_TARGET_PERCENT), r.sell_order_id⟩
  let nl : ℤ :=
    match (openRows.map TradeRow.level).max? with
    | some m => m + 1
    | none => 0
  let ref : Option ℚ :=
    if nl ≤ 0 then none
    else
      match openRows.find? (fun r => r.level == 0) with
      | some r0 => some (pyround2 (compound1^[(nl - 1).toNat] r0.buy_price))
      | none => none
  ⟨db, inventory, nl, ref⟩

/-- Modelled from the spec: the reconciliation algorithm of section 4.3,
steps 1-7, as a function of the broker snapshot (open sells, position,
average cost), the ladder, the persisted ledger, the current time and the
broker-assigned id for the orphan's protective sell.  Step 4 books the orphan
quantity at the sentinel level priced at the broker's average cost, places a
protective sell for it and attaches the pairing; a position below the ledger
by more than the tolerance is unexplained and fatal (section 7c).  Returned
orders: the orphan's protective sell, when placed. -/
def reconcile (ladder : List ℤ) (sells : List BrokerSellOrder)
    (position avg_cost : ℚ) (freshSellId : ℤ) (now : ℤ)
    (db0 : List TradeRow) : Except String (SpecState × List Order) :=
  match synth_rows_for_sells ladder now db0 sells with
  | Except.error e => Except.error e
  | Except.ok db1 =>
    let db2 := close_offline_filled (sells.map BrokerSellOrder.orderId) now db1
    let openQty : ℚ := ((get_open_trades db2).map TradeRow.buy_quantity).sum
    let orphan := position - openQty
    if TOLERANCE < orphan then
      match create_buy_trade db2 SENTINEL_LEVEL (next_synthetic_id db2)
          orphan avg_cost now with
      | (_, none) => Except.error "synthetic order id collision"
      | (db3, some row_id) =>
        let target := pyround2 (fmul avg_cost PROFIT_TARGET_PERCENT)
        let db4 := update_trade_with_sell_order db3 row_id freshSellId
        Except.ok (spec_build_state db4,
          [⟨OrderAction.SELL, orphan, target, none⟩])
    else if orphan < -TOLERANCE then
      Except.error "broker position unexplained by open orders"
    else
      Except.ok (spec_build_state db2, [])

/-- The reference-price evolution under a sequence of BUY fills, each given
as (filled quantity, fill price, broker-assigned sell order id): fold the
BUY branch of `on_fill` over the fills. -/
def run_buy_fills (s : BotState) (fills : List (ℤ × ℚ × ℤ)) : BotState :=
  fills.foldl (fun st f => (on_fill_buy st f.1 f.2.1 f.2.2).1) s

/-- The ledger row reconciliation synthesizes for the j-th unmatched broker
SELL order (section 4.3 step 2): ladder level recovered by the inverse
quantity lookup, synthetic buy order id `-(1+j)`, implied purchase price from
inverting the profit-target ratio, and the sell order id attached. -/
def synthRow (ladder : List ℤ) (now : ℤ) (j : ℕ) (o : BrokerSellOrder) :
    TradeRow :=
  ⟨(((inverse_level_lookup ladder o.quantity).getD 0 : ℕ) : ℤ),
   -(1 + (j : ℤ)), o.quantity, fdiv o.lmtPrice PROFIT_TARGET_PERCENT, now,
   TradeStatus.OPEN, some o.orderId, none, none, none⟩

/-- The rows synthesized for a list of broker SELL orders, numbering the
synthetic ids from `j`. -/
def synthRows (ladder : List ℤ) (now : ℤ) :
    ℕ → List BrokerSellOrder → List TradeRow
  | _, [] => []
  | j, o :: rest => synthRow ladder now j o :: synthRows ladder now (j + 1) rest

/-! ## Helper lemmas -/

theorem ratNe_of_num {a b : ℚ} (h : a.num ≠ b.num) : a ≠ b :=
  fun he => h (congrArg Rat.num he)

theorem setSellAt_append (xs : List TradeRow) (r : TradeRow) (sid : ℤ) :
    setSellAt (xs ++ [r]) xs.length sid =
      xs ++ [{ r with sell_order_id := some sid }] := by
  induction xs with
  | nil => rfl
  | cons x xs ih => simpa [setSellAt] using ih

theorem on_fill_buy_inventory (s : BotState) (q : ℤ) (p : ℚ) (sid : ℤ) :
    (on_fill_buy s q p sid).1.lot_inventory =
      s.lot_inventory ++
        [{ Lot.init s.next_level q p none with sell_order_id := some sid }] := by
  unfold on_fill_buy
  dsimp only
  split <;> (try split) <;> rfl

theorem on_fill_buy_level0 (s : BotState) (h : s.next_level = 0) (q : ℤ)
    (p : ℚ) (sid : ℤ) :
    (on_fill_buy s q p sid).1.next_level = 1 ∧
      (on_fill_buy s q p sid).1.buy_reference_price = some p := by
  unfold on_fill_buy
  simp [h]

theorem on_fill_buy_pos (s : BotState) (h : s.next_level ≠ 0) (r : ℚ)
    (hr : s.buy_reference_price = some r) (q : ℤ) (p : ℚ) (sid : ℤ) :
    (on_fill_buy s q p sid).1.next_level = s.next_level + 1 ∧
      (on_fill_buy s q p sid).1.buy_reference_price = some (refStep r) := by
  unfold on_fill_buy
  simp [h, hr]

theorem create_buy_trade_fresh (db : List TradeRow) (level O : ℤ)
    (qty price : ℚ) (ts : ℤ) (h : ∀ r ∈ db, r.buy_order_id ≠ O) :
    create_buy_trade db level O qty price ts =
      (db ++ [⟨level, O, qty, price, ts, TradeStatus.OPEN,
        none, none, none, none⟩], some db.length) := by
  unfold create_buy_trade
  have hany : db.any (fun r => r.buy_order_id == O) = false := by
    rw [List.any_eq_false]
    intro r hm
    simpa using h r hm
  simp [hany]

theorem create_buy_trade_dup (db : List TradeRow) (level O : ℤ)
    (qty price : ℚ) (ts : ℤ) (r : TradeRow) (hm : r ∈ db)
    (h : r.buy_order_id = O) :
    create_buy_trade db level O qty price ts = (db, none) := by
  unfold create_buy_trade
  have hany : db.any (fun r => r.buy_order_id == O) = true :=
    List.any_eq_true.mpr ⟨r, hm, by simp [h]⟩
  simp [hany]

theorem update_attach_fresh (db : List TradeRow) (row : TradeRow) (sid : ℤ)
    (h : ∀ r ∈ db, r.sell_order_id ≠ some sid)
    (hrow : row.sell_order_id = none) :
    update_trade_with_sell_order (db ++ [row]) db.length sid =
      db ++ [{ row with sell_order_id := some sid }] := by
  unfold update_trade_with_sell_order
  have hany : (db ++ [row]).any
      (fun r => r.sell_order_id == some sid) = false := by
    rw [List.any_eq_false]
    intro r hm
    rcases List.mem_append.mp hm with h1 | h1
    · simpa using h r h1
    · rw [List.mem_singleton.mp h1]
      simp [hrow]
  simp [hany, setSellAt_append]

/-! ## Claims -/

/-- C9: a SELL fill whose order id matches no lot in the inventory leaves the
bot state unchanged and triggers no state-file write (the event is logged and
ignored); likewise `close_trade` with an unmatched `sell_order_id` modifies no
ledger row (and, being a plain UPDATE, raises no error). -/
theorem C9_unmatched_sell_is_ignored (s : BotState) (orderId : ℤ)
    (hinv : ∀ lot ∈ s.lot_inventory, lot.sell_order_id ≠ some orderId)
    (db : List TradeRow) (sid : ℤ) (q p : ℚ) (t : ℤ)
    (hdb : ∀ r ∈ db, r.sell_order_id ≠ some sid) :
    on_fill_sell s orderId = (s, false) ∧ close_trade db sid q p t = db := by
  constructor
  · unfold on_fill_sell
    have hnone :
        s.lot_inventory.find? (fun lot => lot.sell_order_id == some orderId)
          = none := by
      rw [List.find?_eq_none]
      intro lot hm
      simpa using hinv lot hm
    rw [hnone]
  · unfold close_trade
    have : ∀ r ∈ db,
        (if r.sell_order_id == some sid then
          { r with status := TradeStatus.CLOSED,
                   sell_quantity := some q,
                   sell_price := some p,
                   sell_timestamp := some t }
         else r) = id r := by
      intro r hm
      have : ¬(r.sell_order_id = some sid) := hdb r hm
      simp [this]
    rw [List.map_congr_left this, List.map_id]

/-- C9 witness: a concrete unmatched SELL fill and a concrete unmatched
`close_trade` call, both no-ops. -/
theorem C9_unmatched_sell_is_ignored_witness :
    on_fill_sell ⟨[100], [Lot.init 0 100 (fl 50) (some 3)], 1, some (fl 50)⟩ 4 =
        (⟨[100], [Lot.init 0 100 (fl 50) (some 3)], 1, some (fl 50)⟩, false) ∧
      close_trade [⟨0, 1, 100, fl 50, 0, TradeStatus.OPEN, some 3,
          none, none, none⟩] 4 100 (fl 51) 9 =
        [⟨0, 1, 100, fl 50, 0, TradeStatus.OPEN, some 3, none, none, none⟩] :=
  C9_unmatched_sell_is_ignored _ 4 (by decide) _ 4 100 (fl 51) 9 (by decide)

/-- C8: every lot ever constructed carries
`sell_target_price = round(purchase_price * PROFIT_TARGET_PERCENT, 2)`; hence
every lot in any reachable inventory does; and the protective SELL placed for
a lot has limit price exactly `sell_target_price` and quantity exactly the
lot's quantity (in particular the sell emitted by a BUY fill at price `p` has
limit `round(p * PROFIT_TARGET_PERCENT, 2)` and the filled quantity). -/
theorem C8_sell_target_invariant :
    (∀ (level : ℕ) (q : ℤ) (p : ℚ) (sid : Option ℤ),
        (Lot.init level q p sid).sell_target_price =
          pyround2 (fmul p PROFIT_TARGET_PERCENT)) ∧
    (∀ s, Reachable s → ∀ lot ∈ s.lot_inventory,
        lot.sell_target_price =
          pyround2 (fmul lot.purchase_price PROFIT_TARGET_PERCENT)) ∧
    (∀ lot : Lot, place_sell_order lot =
        ⟨OrderAction.SELL, (lot.quantity : ℚ), lot.sell_target_price, none⟩) ∧
    (∀ s (q : ℤ) (p : ℚ) (sid : ℤ), (on_fill_buy s q p sid).2 =
        ⟨OrderAction.SELL, (q : ℚ), pyround2 (fmul p PROFIT_TARGET_PERCENT),
         none⟩) := by
  refine ⟨fun _ _ _ _ => rfl, ?_, fun _ => rfl, ?_⟩
  · intro s h
    induction h with
    | load lot_map saved =>
      intro lot hm
      simp only [loadBot] at hm
      obtain ⟨d, _, rfl⟩ := List.mem_map.mp hm
      rfl
    | buy s q p sid _ ih =>
      intro lot hm
      rw [on_fill_buy_inventory] at hm
      rcases List.mem_append.mp hm with h1 | h1
      · exact ih lot h1
      · rw [List.mem_singleton.mp h1]
        rfl
    | sell s oid _ ih =>
      intro lot hm
      unfold on_fill_sell at hm
      rcases hfind : s.lot_inventory.find?
          (fun lot => lot.sell_order_id == some oid) with _ | found
      · rw [hfind] at hm
        exact ih lot hm
      · rw [hfind] at hm
        exact ih lot (List.mem_of_mem_erase hm)
  · intro s q p sid
    unfold on_fill_buy
    dsimp only
    split <;> (try split) <;> rfl

set_option maxRecDepth 2000 in
/-- C7 (amended): when `next_level = 0` and a valid positive price `P`
arrives, the bootstrap places a single BUY limit order for the ladder's
level-0 quantity at limit `round(P * L0_BUY_BUFFER, 2)`; for the scenario
price 50.00 the limit price is 50.12 (the binary64 product `50 * 1.0025` is
exactly 50.125 and `round` ties to even) and the quantity is 100. -/
theorem C7_bootstrap_order (s : BotState) (P : ℚ) (h0 : s.next_level = 0)
    (hP : 0 < P) :
    on_price_tick s P =
      some ⟨OrderAction.BUY, ((s.lot_map.headD 0 : ℤ) : ℚ),
        pyround2 (fmul P L0_BUY_BUFFER), none⟩ ∧
    on_price_tick ⟨[100, 100, 50], [], 0, none⟩ (fl 50) =
      some ⟨OrderAction.BUY, 100, fl (1253 / 25), none⟩ := by
  constructor
  · simp [on_price_tick, execute_buy_level_0, h0, hP]
  · have h1 : (0 : ℚ) < fl 50 := of_decide_eq_true (by with_unfolding_all exact rfl)
    have h2 : pyround2 (fmul (fl 50) L0_BUY_BUFFER) = fl (1253 / 25) :=
      Rat.ext (of_decide_eq_true (by with_unfolding_all exact rfl))
        (of_decide_eq_true (by with_unfolding_all exact rfl))
    simp [on_price_tick, execute_buy_level_0, h1, h2]

set_option maxRecDepth 2000 in
/-- C7 witness: the bootstrap order at the scenario inputs, via the general
statement. -/
theorem C7_bootstrap_order_witness :
    on_price_tick ⟨[100, 100, 50], [], 0, none⟩ (fl 50) =
      some ⟨OrderAction.BUY,
        (((([100, 100, 50] : List ℤ)).headD 0 : ℤ) : ℚ),
        pyround2 (fmul (fl 50) L0_BUY_BUFFER), none⟩ :=
  (C7_bootstrap_order ⟨[100, 100, 50], [], 0, none⟩ (fl 50) rfl (of_decide_eq_true (by with_unfolding_all exact rfl))).1

set_option maxRecDepth 2000 in
/-- C7 counterexample: the claimed limit price 50.13 is wrong — at price
50.00 the code produces 50.12 (both compared as the binary64 values the
program holds, and against the exact decimal 50.13). -/
theorem C7_counterexample :
    (execute_buy_level_0 [100, 100, 50] (fl 50)).lmtPrice = fl (1253 / 25) ∧
    fl (1253 / 25) ≠ fl (5013 / 100) ∧
    (execute_buy_level_0 [100, 100, 50] (fl 50)).lmtPrice ≠ (5013 : ℚ) / 100 := by
  have h2 : pyround2 (fmul (fl 50) L0_BUY_BUFFER) = fl (1253 / 25) :=
    Rat.ext (of_decide_eq_true (by with_unfolding_all exact rfl))
      (of_decide_eq_true (by with_unfolding_all exact rfl))
  refine ⟨by simp [execute_buy_level_0, h2], ?_, ?_⟩
  · exact ratNe_of_num (of_decide_eq_true (by with_unfolding_all exact rfl))
  · simp only [execute_buy_level_0, h2]
    exact ratNe_of_num (of_decide_eq_true (by with_unfolding_all exact rfl))

/-- C5 (amended): the queue refresh cancels exactly the currently open BUY
orders for the instrument — every open BUY, with no exemption parameter; the
just-filled order escapes only if the broker no longer lists it as open. -/
theorem C5_cancel_set (open_orders : List OpenOrder) (oid : ℤ) :
    oid ∈ place_future_buy_queue_cancels open_orders ↔
      ∃ o ∈ open_orders, o.orderId = oid ∧ o.isOurContract = true ∧
        o.action = OrderAction.BUY := by
  simp only [place_future_buy_queue_cancels, List.mem_map, List.mem_filter,
    Bool.and_eq_true, beq_iff_eq]
  constructor
  · rintro ⟨o, ⟨hm, hc, ha⟩, rfl⟩
    exact ⟨o, hm, rfl, hc, ha⟩
  · rintro ⟨o, hm, rfl, hc, ha⟩
    exact ⟨o, ⟨hm, hc, ha⟩, rfl⟩

/-- C5 counterexample: if the just-filled BUY order (id 42) is still listed
open, the refresh cancels it — there is no exemption, refuting "the
just-filled order O itself is never sent a cancellation". -/
theorem C5_counterexample :
    place_future_buy_queue_cancels
        [⟨42, true, OrderAction.BUY, fl (99 / 2)⟩] = [42] ∧
      (42 : ℤ) ∈ place_future_buy_queue_cancels
        [⟨42, true, OrderAction.BUY, fl (99 / 2)⟩] := by
  decide

theorem place_future_buy_queue_loop_eq (lot_map : List ℤ) :
    ∀ (depth level : ℕ) (ref : ℚ),
      place_future_buy_queue_loop lot_map depth level ref =
        (List.range (min depth (lot_map.length - level))).map fun j =>
          place_conditional_buy (lot_map.getD (level + j) 0)
            (refStep^[j + 1] ref) := by
  intro depth
  induction depth with
  | zero => intro level ref; simp [place_future_buy_queue_loop]
  | succ d ih =>
    intro level ref
    unfold place_future_buy_queue_loop
    split
    case isTrue h =>
      dsimp only
      have hlen : lot_map.length - level = (lot_map.length - (level + 1)) + 1 := by
        omega
      rw [ih (level + 1) (refStep ref), hlen, Nat.succ_min_succ,
        List.range_succ_eq_map, List.map_cons, List.map_map]
      congr 1
      · rw [List.getD_eq_getElem lot_map 0 (by omega)]
        simp
      · apply List.map_congr_left
        intro j _
        simp only [Function.comp_apply]
        have h1 : level + (j + 1) = level + 1 + j := by omega
        have h2 : refStep^[j + 1 + 1] ref = refStep^[j + 1] (refStep ref) :=
          Function.iterate_succ_apply refStep (j + 1) ref
        rw [h1, h2]
    case isFalse h =>
      have hz : lot_map.length - level = 0 := by omega
      simp [hz]

set_option maxRecDepth 2000 in
/-- C6 (amended): after a queue refresh the conditional BUY orders cover
exactly levels `next_level` through `next_level + depth - 1`, stopping early
when the ladder is exhausted; each order has trigger-equals-limit pricing,
and the j-th trigger is the reference price multiplied by
`BUY_TRIGGER_PERCENT` j+1 times with cent rounding after each multiplication.
For reference price 50.00 the three triggers are 49.50 / 49.01 / 48.52. -/
theorem C6_queue_refresh (lot_map : List ℤ) (next_level : ℕ) (ref : ℚ) :
    place_future_buy_queue lot_map next_level ref =
      (List.range (min FUTURE_BUY_QUEUE_DEPTH (lot_map.length - next_level))).map
        (fun j => place_conditional_buy (lot_map.getD (next_level + j) 0)
          (refStep^[j + 1] ref)) ∧
    (∀ o ∈ place_future_buy_queue lot_map next_level ref,
        o.action = OrderAction.BUY ∧ o.conditionPrice = some o.lmtPrice) ∧
    refStep (fl 50) = fl (99 / 2) ∧
    refStep (fl (99 / 2)) = fl (4901 / 100) ∧
    refStep (fl (4901 / 100)) = fl (4852 / 100) := by
  refine ⟨place_future_buy_queue_loop_eq lot_map _ next_level ref, ?_,
    Rat.ext (of_decide_eq_true (by with_unfolding_all exact rfl))
    (of_decide_eq_true (by with_unfolding_all exact rfl)),
    Rat.ext (of_decide_eq_true (by with_unfolding_all exact rfl))
    (of_decide_eq_true (by with_unfolding_all exact rfl)),
    Rat.ext (of_decide_eq_true (by with_unfolding_all exact rfl))
    (of_decide_eq_true (by with_unfolding_all exact rfl))⟩
  intro o ho
  rw [place_future_buy_queue,
    place_future_buy_queue_loop_eq lot_map _ next_level ref] at ho
  obtain ⟨j, _, rfl⟩ := List.mem_map.mp ho
  exact ⟨rfl, rfl⟩

set_option maxRecDepth 2000 in
/-- C6 witness: the per-order facts discharged on a concrete queued order. -/
theorem C6_queue_refresh_witness :
    (place_conditional_buy 100 (refStep (fl 50))).action = OrderAction.BUY ∧
      (place_conditional_buy 100 (refStep (fl 50))).conditionPrice =
        some (place_conditional_buy 100 (refStep (fl 50))).lmtPrice :=
  (C6_queue_refresh [100, 100] 0 (fl 50)).2.1
    (place_conditional_buy 100 (refStep (fl 50)))
    (by simp [place_future_buy_queue, FUTURE_BUY_QUEUE_DEPTH,
          place_future_buy_queue_loop])

set_option maxRecDepth 2000 in
/-- C6 counterexample: from reference 50.00 the code's second and third
triggers are 49.01 and 48.52 (the binary64 product `49.5 * 0.99` is just
above the tie 49.005, so it rounds up), not the claimed 49.005 / 48.51. -/
theorem C6_counterexample :
    refStep (refStep (fl 50)) = fl (4901 / 100) ∧
      fl (4901 / 100) ≠ fl (49005 / 1000) ∧
      refStep (refStep (refStep (fl 50))) = fl (4852 / 100) ∧
      fl (4852 / 100) ≠ fl (4851 / 100) := by
  have h1 : refStep (fl 50) = fl (99 / 2) :=
    Rat.ext (of_decide_eq_true (by with_unfolding_all exact rfl))
    (of_decide_eq_true (by with_unfolding_all exact rfl))
  have h2 : refStep (fl (99 / 2)) = fl (4901 / 100) :=
    Rat.ext (of_decide_eq_true (by with_unfolding_all exact rfl))
    (of_decide_eq_true (by with_unfolding_all exact rfl))
  have h3 : refStep (fl (4901 / 100)) = fl (4852 / 100) :=
    Rat.ext (of_decide_eq_true (by with_unfolding_all exact rfl))
      (of_decide_eq_true (by with_unfolding_all exact rfl))
  refine ⟨by rw [h1, h2], ratNe_of_num (of_decide_eq_true (by with_unfolding_all exact rfl)),
    by rw [h1, h2, h3], ratNe_of_num (of_decide_eq_true (by with_unfolding_all exact rfl))⟩


theorem run_buy_fills_pos :
    ∀ (fills : List (ℤ × ℚ × ℤ)) (s : BotState) (r : ℚ),
      s.next_level ≠ 0 → s.buy_reference_price = some r →
      (run_buy_fills s fills).buy_reference_price =
          some (refStep^[fills.length] r) ∧
        (run_buy_fills s fills).next_level = s.next_level + fills.length := by
  intro fills
  induction fills with
  | nil => intro s r h hr; simpa [run_buy_fills] using hr
  | cons f rest ih =>
    intro s r h hr
    have hstep := on_fill_buy_pos s h r hr f.1 f.2.1 f.2.2
    have hne2 : (on_fill_buy s f.1 f.2.1 f.2.2).1.next_level ≠ 0 := by
      rw [hstep.1]; omega
    have hrec := ih (on_fill_buy s f.1 f.2.1 f.2.2).1 (refStep r) hne2 hstep.2
    have hrun : run_buy_fills s (f :: rest) =
        run_buy_fills (on_fill_buy s f.1 f.2.1 f.2.2).1 rest := rfl
    rw [hrun]
    refine ⟨?_, ?_⟩
    · rw [hrec.1, List.length_cons, Function.iterate_succ_apply]
    · rw [hrec.2, hstep.1, List.length_cons]
      omega

/-- C4 (amended): after a level-0 BUY fill at price `P0` followed by `N`
further BUY fills, `buy_reference_price` equals `P0` multiplied by
`BUY_TRIGGER_PERCENT` once per subsequent fill with cent rounding after each
multiplication (`refStep` iterated `N` times), and `next_level = N + 1`.
The claim's final clause — that the value recomputed at startup by
`find_reference_price` satisfies the same per-step-rounded equation — is
false: that function rounds only the final result (see the
counterexample). -/
theorem C4_reference_compounding (s0 : BotState) (h0 : s0.next_level = 0)
    (q0 : ℤ) (p0 : ℚ) (sid0 : ℤ) (fills : List (ℤ × ℚ × ℤ)) :
    (run_buy_fills s0 ((q0, p0, sid0) :: fills)).buy_reference_price =
        some (refStep^[fills.length] p0) ∧
      (run_buy_fills s0 ((q0, p0, sid0) :: fills)).next_level =
        1 + fills.length := by
  have h1 := on_fill_buy_level0 s0 h0 q0 p0 sid0
  have hne : (on_fill_buy s0 q0 p0 sid0).1.next_level ≠ 0 := by
    rw [h1.1]; omega
  have hrec := run_buy_fills_pos fills (on_fill_buy s0 q0 p0 sid0).1 p0 hne h1.2
  have hrun : run_buy_fills s0 ((q0, p0, sid0) :: fills) =
      run_buy_fills (on_fill_buy s0 q0 p0 sid0).1 fills := rfl
  rw [hrun]
  exact ⟨hrec.1, by rw [hrec.2, h1.1]⟩

/-- C4 witness: the compounding equation at a concrete level-0 fill. -/
theorem C4_reference_compounding_witness :
    (run_buy_fills (loadBot [100] []) [(100, fl 50, 7)]).buy_reference_price =
        some (refStep^[(0 : ℕ)] (fl 50)) ∧
      (run_buy_fills (loadBot [100] []) [(100, fl 50, 7)]).next_level = 1 + 0 :=
  C4_reference_compounding (loadBot [100] []) rfl 100 (fl 50) 7 []

set_option maxRecDepth 2000 in
/-- C4 counterexample: from level-0 price 1.52, after three fills the
handler's reference price is 1.48 (per-step rounding) but the startup
recomputation gives 1.49 (one rounding at the end) — the "same equation"
clause fails. -/
theorem C4_counterexample :
    (run_buy_fills (loadBot [100, 100, 100, 100] [])
        [(100, fl (38 / 25), 1), (100, fl (38 / 25), 2),
         (100, fl (38 / 25), 3)]).buy_reference_price = some (fl (37 / 25)) ∧
      find_reference_price
          (run_buy_fills (loadBot [100, 100, 100, 100] [])
            [(100, fl (38 / 25), 1), (100, fl (38 / 25), 2),
             (100, fl (38 / 25), 3)]).lot_inventory
          (run_buy_fills (loadBot [100, 100, 100, 100] [])
            [(100, fl (38 / 25), 1), (100, fl (38 / 25), 2),
             (100, fl (38 / 25), 3)]).next_level = some (fl (149 / 100)) ∧
      fl (37 / 25) ≠ fl (149 / 100) := by
  have e1 : (run_buy_fills (loadBot [100, 100, 100, 100] [])
      [(100, fl (38 / 25), 1), (100, fl (38 / 25), 2),
       (100, fl (38 / 25), 3)]).buy_reference_price =
      some (refStep (refStep (fl (38 / 25)))) := rfl
  have e2 : find_reference_price
      (run_buy_fills (loadBot [100, 100, 100, 100] [])
        [(100, fl (38 / 25), 1), (100, fl (38 / 25), 2),
         (100, fl (38 / 25), 3)]).lot_inventory
      (run_buy_fills (loadBot [100, 100, 100, 100] [])
        [(100, fl (38 / 25), 1), (100, fl (38 / 25), 2),
         (100, fl (38 / 25), 3)]).next_level =
      some (pyround2 (compound1 (compound1 (fl (38 / 25))))) := rfl
  have v1 : refStep (refStep (fl (38 / 25))) = fl (37 / 25) :=
    Rat.ext (of_decide_eq_true (by with_unfolding_all exact rfl))
      (of_decide_eq_true (by with_unfolding_all exact rfl))
  have v2 : pyround2 (compound1 (compound1 (fl (38 / 25)))) = fl (149 / 100) :=
    Rat.ext (of_decide_eq_true (by with_unfolding_all exact rfl))
      (of_decide_eq_true (by with_unfolding_all exact rfl))
  exact ⟨by rw [e1, v1], by rw [e2, v2],
    ratNe_of_num (of_decide_eq_true (by with_unfolding_all exact rfl))⟩

/-- C10 (amended): the reference price recomputed at startup agrees with the
incrementally maintained one after the level-0 fill provided the level-0
fill price is unchanged by cent rounding, and unconditionally after one
further fill (both sides then perform exactly one rounded multiplication);
from three fills on the two can differ, because `find_reference_price`
rounds only the final result while the fill handler rounds every step (see
the counterexample). -/
theorem C10_restart_reference (lot_map : List ℤ) (q0 : ℤ) (p0 : ℚ)
    (sid0 : ℤ) (hp : pyround2 p0 = p0) (q1 : ℤ) (p1 : ℚ) (sid1 : ℤ) :
    find_reference_price
        ((on_fill_buy (loadBot lot_map []) q0 p0 sid0).1).lot_inventory
        ((on_fill_buy (loadBot lot_map []) q0 p0 sid0).1).next_level =
      ((on_fill_buy (loadBot lot_map []) q0 p0 sid0).1).buy_reference_price ∧
    find_reference_price
        ((on_fill_buy (on_fill_buy (loadBot lot_map []) q0 p0 sid0).1
            q1 p1 sid1).1).lot_inventory
        ((on_fill_buy (on_fill_buy (loadBot lot_map []) q0 p0 sid0).1
            q1 p1 sid1).1).next_level =
      ((on_fill_buy (on_fill_buy (loadBot lot_map []) q0 p0 sid0).1
          q1 p1 sid1).1).buy_reference_price := by
  constructor
  · have e : find_reference_price
        ((on_fill_buy (loadBot lot_map []) q0 p0 sid0).1).lot_inventory
        ((on_fill_buy (loadBot lot_map []) q0 p0 sid0).1).next_level =
        some (pyround2 p0) := rfl
    rw [e, hp]
    rfl
  · rfl

/-- C10 witness: restart invariance at a concrete whole-cent level-0 fill. -/
theorem C10_restart_reference_witness :
    find_reference_price
        ((on_fill_buy (loadBot [100, 100, 50] []) 100 (fl 50) 7).1).lot_inventory
        ((on_fill_buy (loadBot [100, 100, 50] []) 100 (fl 50) 7).1).next_level =
      ((on_fill_buy (loadBot [100, 100, 50] []) 100 (fl 50) 7).1).buy_reference_price :=
  (C10_restart_reference [100, 100, 50] 100 (fl 50) 7
    (Rat.ext (of_decide_eq_true (by with_unfolding_all exact rfl))
      (of_decide_eq_true (by with_unfolding_all exact rfl))) 100 (fl (99 / 2)) 8).1

set_option maxRecDepth 2000 in
/-- C10 counterexample: from level-0 price 1.53 and three fills, the
maintained reference is 1.49 but a restart recomputes 1.50 — restarting the
bot can change the reference price. -/
theorem C10_counterexample :
    (run_buy_fills (loadBot [100, 100, 100, 100] [])
        [(100, fl (153 / 100), 1), (100, fl (153 / 100), 2),
         (100, fl (153 / 100), 3)]).buy_reference_price =
        some (fl (149 / 100)) ∧
      find_reference_price
          (run_buy_fills (loadBot [100, 100, 100, 100] [])
            [(100, fl (153 / 100), 1), (100, fl (153 / 100), 2),
             (100, fl (153 / 100), 3)]).lot_inventory
          (run_buy_fills (loadBot [100, 100, 100, 100] [])
            [(100, fl (153 / 100), 1), (100, fl (153 / 100), 2),
             (100, fl (153 / 100), 3)]).next_level = some (fl (3 / 2)) ∧
      fl (149 / 100) ≠ fl (3 / 2) := by
  have e1 : (run_buy_fills (loadBot [100, 100, 100, 100] [])
      [(100, fl (153 / 100), 1), (100, fl (153 / 100), 2),
       (100, fl (153 / 100), 3)]).buy_reference_price =
      some (refStep (refStep (fl (153 / 100)))) := rfl
  have e2 : find_reference_price
      (run_buy_fills (loadBot [100, 100, 100, 100] [])
        [(100, fl (153 / 100), 1), (100, fl (153 / 100), 2),
         (100, fl (153 / 100), 3)]).lot_inventory
      (run_buy_fills (loadBot [100, 100, 100, 100] [])
        [(100, fl (153 / 100), 1), (100, fl (153 / 100), 2),
         (100, fl (153 / 100), 3)]).next_level =
      some (pyround2 (compound1 (compound1 (fl (153 / 100))))) := rfl
  have v1 : refStep (refStep (fl (153 / 100))) = fl (149 / 100) :=
    Rat.ext (of_decide_eq_true (by with_unfolding_all exact rfl))
      (of_decide_eq_true (by with_unfolding_all exact rfl))
  have v2 : pyround2 (compound1 (compound1 (fl (153 / 100)))) = fl (3 / 2) :=
    Rat.ext (of_decide_eq_true (by with_unfolding_all exact rfl))
      (of_decide_eq_true (by with_unfolding_all exact rfl))
  exact ⟨by rw [e1, v1], by rw [e2, v2],
    ratNe_of_num (of_decide_eq_true (by with_unfolding_all exact rfl))⟩

/-- C8 witness: the invariant evaluated on a concrete reachable state. -/
theorem C8_sell_target_invariant_witness :
    (Lot.init 0 100 (fl 50) none).sell_target_price =
        pyround2 (fmul (fl 50) PROFIT_TARGET_PERCENT) ∧
      ∀ lot ∈ (loadBot [100, 100, 50]
          [⟨0, 100, fl 50, some 3⟩]).lot_inventory,
        lot.sell_target_price =
          pyround2 (fmul lot.purchase_price PROFIT_TARGET_PERCENT) :=
  ⟨C8_sell_target_invariant.1 0 100 (fl 50) none,
   C8_sell_target_invariant.2.1 _ (Reachable.load [100, 100, 50] _)⟩

theorem spec_on_buy_fill_dup (s1 : SpecState) (O : ℤ) (qty price : ℚ)
    (ts sellId : ℤ) (hdup : ∃ r ∈ s1.ledger, r.buy_order_id = O) :
    spec_on_buy_fill s1 O qty price ts sellId = (s1, []) := by
  obtain ⟨rO, hm, hid⟩ := hdup
  cases hg : s1.inventory.any (fun lot => lot.level == s1.next_level) with
  | true =>
    unfold spec_on_buy_fill
    dsimp only
    rw [hg]
    rfl
  | false =>
    have hc := create_buy_trade_dup s1.ledger s1.next_level O qty price ts
      rO hm hid
    unfold spec_on_buy_fill
    dsimp only
    rw [hg]
    simp only [Bool.false_eq_true, if_false]
    rw [hc]

/-- C1: in the ledger-integrated fill processor (modelled from the spec over
the embedded `db_tqqq.py` operations), delivering the same fresh BUY-fill
event twice yields exactly one new ledger row and exactly one new lot: the
first delivery adds one row and one lot, and the second delivery — caught by
the duplicate guard (a lot now occupies the level) or by `create_buy_trade`'s
duplicate `buy_order_id` check — changes nothing and places no order. -/
theorem C1_buy_fill_idempotent (s : SpecState) (O : ℤ) (qty price : ℚ)
    (ts sellId : ℤ)
    (hO : ∀ r ∈ s.ledger, r.buy_order_id ≠ O)
    (hL : ∀ lot ∈ s.inventory, lot.level ≠ s.next_level)
    (hS : ∀ r ∈ s.ledger, r.sell_order_id ≠ some sellId) :
    ((spec_on_buy_fill s O qty price ts sellId).1).ledger.length =
        s.ledger.length + 1 ∧
      ((spec_on_buy_fill s O qty price ts sellId).1).inventory.length =
        s.inventory.length + 1 ∧
      (spec_on_buy_fill (spec_on_buy_fill s O qty price ts sellId).1
          O qty price ts sellId).1 =
        (spec_on_buy_fill s O qty price ts sellId).1 ∧
      (spec_on_buy_fill (spec_on_buy_fill s O qty price ts sellId).1
          O qty price ts sellId).2 = ([] : List Order) := by
  have hguard1 : s.inventory.any
      (fun lot => lot.level == s.next_level) = false := by
    rw [List.any_eq_false]
    intro lot hm
    simpa using hL lot hm
  have hcr := create_buy_trade_fresh s.ledger s.next_level O qty price ts hO
  have hupd := update_attach_fresh s.ledger
    ⟨s.next_level, O, qty, price, ts, TradeStatus.OPEN, none, none, none, none⟩
    sellId hS rfl
  have h1 : spec_on_buy_fill s O qty price ts sellId =
      ({ ledger := s.ledger ++ [⟨s.next_level, O, qty, price, ts,
            TradeStatus.OPEN, some sellId, none, none, none⟩],
         inventory := s.inventory ++
           [⟨s.next_level, qty, price,
             pyround2 (fmul price PROFIT_TARGET_PERCENT), some sellId⟩],
         next_level := s.next_level + 1,
         buy_reference_price :=
           if s.next_level = 0 then some price
           else s.buy_reference_price.map refStep },
       [⟨OrderAction.SELL, qty,
         pyround2 (fmul price PROFIT_TARGET_PERCENT), none⟩]) := by
    unfold spec_on_buy_fill
    dsimp only
    rw [hguard1]
    simp only [Bool.false_eq_true, if_false]
    rw [hcr]
    dsimp only
    rw [hupd]
  have hOin : ∃ r ∈ ((spec_on_buy_fill s O qty price ts sellId).1).ledger,
      r.buy_order_id = O := by
    rw [h1]
    exact ⟨⟨s.next_level, O, qty, price, ts, TradeStatus.OPEN, some sellId,
      none, none, none⟩, by simp, rfl⟩
  have h2 := spec_on_buy_fill_dup
    ((spec_on_buy_fill s O qty price ts sellId).1) O qty price ts sellId hOin
  exact ⟨by rw [h1]; simp, by rw [h1]; simp, by rw [h2], by rw [h2]⟩

/-- C1 witness: two deliveries of the same BUY fill from the empty state. -/
theorem C1_buy_fill_idempotent_witness :
    ((spec_on_buy_fill ⟨[], [], 0, none⟩ 7 100 (fl 50) 0 11).1).ledger.length
        = 1 ∧
      ((spec_on_buy_fill ⟨[], [], 0, none⟩ 7 100 (fl 50) 0 11).1).inventory.length
        = 1 ∧
      (spec_on_buy_fill (spec_on_buy_fill ⟨[], [], 0, none⟩ 7 100 (fl 50) 0 11).1
          7 100 (fl 50) 0 11).1 =
        (spec_on_buy_fill ⟨[], [], 0, none⟩ 7 100 (fl 50) 0 11).1 ∧
      (spec_on_buy_fill (spec_on_buy_fill ⟨[], [], 0, none⟩ 7 100 (fl 50) 0 11).1
          7 100 (fl 50) 0 11).2 = ([] : List Order) :=
  C1_buy_fill_idempotent ⟨[], [], 0, none⟩ 7 100 (fl 50) 0 11
    (by simp) (by simp) (by simp)

theorem synth_rows_matched (ladder : List ℤ) (now : ℤ) :
    ∀ (sells : List BrokerSellOrder) (db : List TradeRow),
      (∀ o ∈ sells, (get_trade_by_sell_order_id db o.orderId).isSome) →
      synth_rows_for_sells ladder now db sells = Except.ok db := by
  intro sells
  induction sells with
  | nil => intro db _; rfl
  | cons o rest ih =>
    intro db h
    have ho := h o (List.mem_cons_self o rest)
    unfold synth_rows_for_sells
    cases hg : get_trade_by_sell_order_id db o.orderId with
    | none => rw [hg] at ho; simp at ho
    | some r =>
      exact ih db (fun o2 hm => h o2 (List.mem_cons_of_mem o hm))

theorem close_offline_filled_noop (brokerIds : List ℤ) (now : ℤ)
    (db : List TradeRow)
    (h : ∀ r ∈ db, r.status = TradeStatus.OPEN →
      ∃ sid, r.sell_order_id = some sid ∧ sid ∈ brokerIds) :
    close_offline_filled brokerIds now db = db := by
  unfold close_offline_filled
  have hcong : ∀ r ∈ db,
      (let absent :=
        match r.sell_order_id with
        | some sid => !(brokerIds.contains sid)
        | none => true
      if r.status == TradeStatus.OPEN && absent then
        { r with status := TradeStatus.CLOSED,
                 sell_quantity := some r.buy_quantity,
                 sell_price := some 0,
                 sell_timestamp := some now }
      else r) = id r := by
    intro r hm
    by_cases hst : r.status = TradeStatus.OPEN
    · obtain ⟨sid, hsid, hmem⟩ := h r hm hst
      simp [hsid, hmem]
    · have hb : (r.status == TradeStatus.OPEN) = false := by
        simpa using hst
      simp [hb]
  rw [List.map_congr_left hcong, List.map_id]

/-- C3: modelled-from-spec reconciliation tolerates a position divergence up
to the tolerance and, beyond it, does not halt: it creates exactly one
synthetic ledger row for the orphan quantity (broker position minus open
ledger quantity) at the sentinel level, priced at the broker average cost,
with a protective sell placed for that quantity at the profit target and its
id attached — under the side conditions that every broker sell is already
matched, every open row's sell is live, and the fresh ids are unused. -/
theorem C3_orphan_reconciliation (ladder : List ℤ)
    (sells : List BrokerSellOrder) (position avg_cost : ℚ)
    (freshSellId now : ℤ) (db0 : List TradeRow)
    (hmatched : ∀ o ∈ sells, (get_trade_by_sell_order_id db0 o.orderId).isSome)
    (hopen : ∀ r ∈ db0, r.status = TradeStatus.OPEN →
      ∃ sid, r.sell_order_id = some sid ∧ sid ∈ sells.map BrokerSellOrder.orderId)
    (horphan : TOLERANCE <
      position - ((get_open_trades db0).map TradeRow.buy_quantity).sum)
    (hfresh : ∀ r ∈ db0, r.sell_order_id ≠ some freshSellId)
    (hid : ∀ r ∈ db0, r.buy_order_id ≠ next_synthetic_id db0) :
    reconcile ladder sells position avg_cost freshSellId now db0 =
      Except.ok (spec_build_state (db0 ++
          [⟨SENTINEL_LEVEL, next_synthetic_id db0,
            position - ((get_open_trades db0).map TradeRow.buy_quantity).sum,
            avg_cost, now, TradeStatus.OPEN, some freshSellId,
            none, none, none⟩]),
        [⟨OrderAction.SELL,
          position - ((get_open_trades db0).map TradeRow.buy_quantity).sum,
          pyround2 (fmul avg_cost PROFIT_TARGET_PERCENT), none⟩]) := by
  have hcr := create_buy_trade_fresh db0 SENTINEL_LEVEL (next_synthetic_id db0)
    (position - ((get_open_trades db0).map TradeRow.buy_quantity).sum)
    avg_cost now hid
  have hupd := update_attach_fresh db0
    ⟨SENTINEL_LEVEL, next_synthetic_id db0,
      position - ((get_open_trades db0).map TradeRow.buy_quantity).sum,
      avg_cost, now, TradeStatus.OPEN, none, none, none, none⟩
    freshSellId hfresh rfl
  unfold reconcile
  rw [synth_rows_matched ladder now sells db0 hmatched]
  dsimp only
  rw [close_offline_filled_noop (sells.map BrokerSellOrder.orderId) now db0 hopen]
  rw [if_pos horphan, hcr]
  dsimp only
  rw [hupd]

/-- C3 witness: the claim's concrete instance — broker position 100 against
open ledger quantity 60 yields one synthetic lot of quantity 40 at the
sentinel level, priced at the broker average cost, with its protective sell
placed and attached. -/
theorem C3_orphan_reconciliation_witness :
    reconcile [100, 100, 50] [⟨5, 60, fl (101 / 2)⟩] 100 (fl 49) 9 7
        [⟨0, 1, 60, fl 50, 0, TradeStatus.OPEN, some 5, none, none, none⟩] =
      Except.ok (spec_build_state
          ([⟨0, 1, 60, fl 50, 0, TradeStatus.OPEN, some 5, none, none, none⟩] ++
            [⟨SENTINEL_LEVEL,
              next_synthetic_id
                [⟨0, 1, 60, fl 50, 0, TradeStatus.OPEN, some 5, none, none, none⟩],
              100 - ((get_open_trades
                [⟨0, 1, 60, fl 50, 0, TradeStatus.OPEN, some 5, none, none,
                  none⟩]).map TradeRow.buy_quantity).sum,
              fl 49, 7, TradeStatus.OPEN, some 9, none, none, none⟩]),
        [⟨OrderAction.SELL,
          100 - ((get_open_trades
            [⟨0, 1, 60, fl 50, 0, TradeStatus.OPEN, some 5, none, none,
              none⟩]).map TradeRow.buy_quantity).sum,
          pyround2 (fmul (fl 49) PROFIT_TARGET_PERCENT), none⟩]) :=
  C3_orphan_reconciliation [100, 100, 50] [⟨5, 60, fl (101 / 2)⟩] 100 (fl 49)
    9 7 [⟨0, 1, 60, fl 50, 0, TradeStatus.OPEN, some 5, none, none, none⟩]
    (by intro o hm; rw [List.mem_singleton.mp hm]; rfl)
    (by
      intro r hm _
      rw [List.mem_singleton.mp hm]
      exact ⟨5, rfl, by simp⟩)
    (of_decide_eq_true (by with_unfolding_all exact rfl))
    (by intro r hm; rw [List.mem_singleton.mp hm]; simp)
    (by
      intro r hm
      rw [List.mem_singleton.mp hm]
      simp [next_synthetic_id, negCount, List.filter_cons])

theorem negCount_append_neg (db : List TradeRow) (r : TradeRow)
    (h : r.buy_order_id < 0) : negCount (db ++ [r]) = negCount db + 1 := by
  unfold negCount
  rw [List.filter_append, List.length_append]
  simp [List.filter_cons, h]

theorem synthRows_length (ladder : List ℤ) (now : ℤ) :
    ∀ (sells : List BrokerSellOrder) (j : ℕ),
      (synthRows ladder now j sells).length = sells.length := by
  intro sells
  induction sells with
  | nil => intro j; rfl
  | cons o rest ih => intro j; simp [synthRows, ih]

theorem synthRows_getElem? (ladder : List ℤ) (now : ℤ) :
    ∀ (sells : List BrokerSellOrder) (j i : ℕ),
      (synthRows ladder now j sells)[i]? =
        (sells[i]?).map (synthRow ladder now (j + i)) := by
  intro sells
  induction sells with
  | nil => intro j i; simp [synthRows]
  | cons o rest ih =>
    intro j i
    cases i with
    | zero => simp [synthRows]
    | succ i2 =>
      have hrec := ih (j + 1) i2
      rw [show j + (i2 + 1) = j + 1 + i2 by omega]
      simpa [synthRows] using hrec

theorem synthRows_props (ladder : List ℤ) (now : ℤ) :
    ∀ (sells : List BrokerSellOrder) (j : ℕ),
      ∀ r ∈ synthRows ladder now j sells,
        r.status = TradeStatus.OPEN ∧ r.buy_order_id < 0 ∧
          ∃ o ∈ sells, r.sell_order_id = some o.orderId ∧
            r.buy_quantity = o.quantity ∧
            r.buy_price = fdiv o.lmtPrice PROFIT_TARGET_PERCENT ∧
            r.level = (((inverse_level_lookup ladder o.quantity).getD 0 : ℕ) : ℤ) := by
  intro sells
  induction sells with
  | nil => intro j r hm; simp [synthRows] at hm
  | cons o rest ih =>
    intro j r hm
    rcases List.mem_cons.mp hm with h1 | h1
    · rw [h1]
      refine ⟨rfl, by simp [synthRow]; omega,
        o, List.mem_cons_self o rest, rfl, rfl, rfl, rfl⟩
    · obtain ⟨hst, hneg, o2, hmem, hrest⟩ := ih (j + 1) r h1
      exact ⟨hst, hneg, o2, List.mem_cons_of_mem o hmem, hrest⟩

theorem synthRows_qty_sum (ladder : List ℤ) (now : ℤ) :
    ∀ (sells : List BrokerSellOrder) (j : ℕ),
      ((synthRows ladder now j sells).map TradeRow.buy_quantity).sum =
        (sells.map BrokerSellOrder.quantity).sum := by
  intro sells
  induction sells with
  | nil => intro j; rfl
  | cons o rest ih => intro j; simp [synthRows, synthRow, ih]

theorem synth_rows_fresh (ladder : List ℤ) (now : ℤ) :
    ∀ (sells : List BrokerSellOrder) (db : List TradeRow),
      (∀ o ∈ sells, ∀ r ∈ db, r.sell_order_id ≠ some o.orderId) →
      (sells.map BrokerSellOrder.orderId).Nodup →
      (∀ o ∈ sells, (inverse_level_lookup ladder o.quantity).isSome) →
      (∀ r ∈ db, r.buy_order_id < 0 → -(negCount db : ℤ) ≤ r.buy_order_id) →
      synth_rows_for_sells ladder now db sells =
        Except.ok (db ++ synthRows ladder now (negCount db) sells) := by
  intro sells
  induction sells with
  | nil => intro db _ _ _ _; simp [synth_rows_for_sells, synthRows]
  | cons o rest ih =>
    intro db hfresh hnd hlk hneg
    have hnone : get_trade_by_sell_order_id db o.orderId = none := by
      unfold get_trade_by_sell_order_id
      rw [List.find?_eq_none]
      intro r hm
      simpa using hfresh o (List.mem_cons_self o rest) r hm
    obtain ⟨level, hlevel⟩ := Option.isSome_iff_exists.mp
      (hlk o (List.mem_cons_self o rest))
    have hidf : ∀ r ∈ db, r.buy_order_id ≠ next_synthetic_id db := by
      intro r hm heq
      unfold next_synthetic_id at heq
      by_cases hr : r.buy_order_id < 0
      · have := hneg r hm hr
        omega
      · omega
    have hcr := create_buy_trade_fresh db (level : ℤ) (next_synthetic_id db)
      o.quantity (fdiv o.lmtPrice PROFIT_TARGET_PERCENT) now hidf
    have hupd := update_attach_fresh db
      ⟨(level : ℤ), next_synthetic_id db, o.quantity,
        fdiv o.lmtPrice PROFIT_TARGET_PERCENT, now, TradeStatus.OPEN,
        none, none, none, none⟩ o.orderId
      (fun r hm => hfresh o (List.mem_cons_self o rest) r hm) rfl
    have hrow : ({ (⟨(level : ℤ), next_synthetic_id db, o.quantity,
        fdiv o.lmtPrice PROFIT_TARGET_PERCENT, now, TradeStatus.OPEN,
        none, none, none, none⟩ : TradeRow) with sell_order_id := some o.orderId } : TradeRow) =
        synthRow ladder now (negCount db) o := by
      simp [synthRow, next_synthetic_id, hlevel]
    have hrowneg : (synthRow ladder now (negCount db) o).buy_order_id < 0 := by
      simp [synthRow]
      omega
    have hnc := negCount_append_neg db (synthRow ladder now (negCount db) o)
      hrowneg
    have hneg2 : ∀ r ∈ db ++ [synthRow ladder now (negCount db) o],
        r.buy_order_id < 0 →
        -((negCount (db ++ [synthRow ladder now (negCount db) o]) : ℕ) : ℤ) ≤
          r.buy_order_id := by
      intro r hm hr
      rw [hnc]
      rcases List.mem_append.mp hm with h1 | h1
      · have := hneg r h1 hr
        push_cast
        push_cast at this
        omega
      · rw [List.mem_singleton.mp h1]
        simp [synthRow]
    have hfresh2 : ∀ o2 ∈ rest,
        ∀ r ∈ db ++ [synthRow ladder now (negCount db) o],
          r.sell_order_id ≠ some o2.orderId := by
      intro o2 hm2 r hmr
      rcases List.mem_append.mp hmr with h1 | h1
      · exact hfresh o2 (List.mem_cons_of_mem o hm2) r h1
      · rw [List.mem_singleton.mp h1]
        simp only [synthRow, Option.some.injEq, ne_eq]
        intro heq
        exact (List.nodup_cons.mp hnd).1
          (heq ▸ List.mem_map_of_mem BrokerSellOrder.orderId hm2)
    have hrec := ih (db ++ [synthRow ladder now (negCount db) o]) hfresh2
      (List.nodup_cons.mp hnd).2
      (fun o2 hm => hlk o2 (List.mem_cons_of_mem o hm)) hneg2
    unfold synth_rows_for_sells
    rw [hnone]
    dsimp only
    rw [hlevel]
    dsimp only
    rw [hcr]
    dsimp only
    rw [hupd]
    dsimp only
    rw [hrow, hrec, hnc]
    rw [show synthRows ladder now (negCount db) (o :: rest) =
        synthRow ladder now (negCount db) o ::
          synthRows ladder now (negCount db + 1) rest from rfl]
    simp

/-- C2: modelled-from-spec reconciliation starting from an empty ledger with
K broker open SELL orders (distinct ids, quantities matching ladder levels,
position consistent) succeeds and produces exactly K OPEN ledger rows, the
i-th synthesized from the i-th broker sell — level from the inverse
quantity lookup, purchase price from inverting the profit-target ratio off
the sell limit price, a synthetic negative buy order id, the sell order id
attached — and `next_level` equals the maximum synthesized level plus one. -/
theorem C2_reconciliation_convergence (ladder : List ℤ)
    (sells : List BrokerSellOrder) (position avg_cost : ℚ)
    (freshSellId now : ℤ)
    (hne : sells ≠ [])
    (hnd : (sells.map BrokerSellOrder.orderId).Nodup)
    (hlk : ∀ o ∈ sells, (inverse_level_lookup ladder o.quantity).isSome)
    (hpos : position = (sells.map BrokerSellOrder.quantity).sum) :
    ∃ st, reconcile ladder sells position avg_cost freshSellId now [] =
        Except.ok (st, []) ∧
      st.ledger = synthRows ladder now 0 sells ∧
      st.ledger.length = sells.length ∧
      (∀ i : ℕ, st.ledger[i]? = (sells[i]?).map (synthRow ladder now i)) ∧
      (∀ r ∈ st.ledger, r.status = TradeStatus.OPEN ∧ r.buy_order_id < 0 ∧
        ∃ o ∈ sells, r.sell_order_id = some o.orderId ∧
          r.buy_quantity = o.quantity ∧
          r.buy_price = fdiv o.lmtPrice PROFIT_TARGET_PERCENT ∧
          r.level = (((inverse_level_lookup ladder o.quantity).getD 0 : ℕ) : ℤ)) ∧
      (∃ m, (st.ledger.map TradeRow.level).max? = some m ∧
        st.next_level = m + 1) := by
  have hsynth := synth_rows_fresh ladder now sells []
    (by simp) hnd hlk (by simp)
  have hsynth2 : synth_rows_for_sells ladder now [] sells =
      Except.ok (synthRows ladder now 0 sells) := by
    simpa [negCount] using hsynth
  have hprops := synthRows_props ladder now sells 0
  have hclose : close_offline_filled (sells.map BrokerSellOrder.orderId) now
      (synthRows ladder now 0 sells) = synthRows ladder now 0 sells := by
    apply close_offline_filled_noop
    intro r hm _
    obtain ⟨_, _, o, hmo, hsid, _⟩ := hprops r hm
    exact ⟨o.orderId, hsid, List.mem_map_of_mem BrokerSellOrder.orderId hmo⟩
  have hfilter : get_open_trades (synthRows ladder now 0 sells) =
      synthRows ladder now 0 sells := by
    unfold get_open_trades
    rw [List.filter_eq_self]
    intro r hm
    simp [(hprops r hm).1]
  have hlen : (synthRows ladder now 0 sells).length = sells.length :=
    synthRows_length ladder now sells 0
  obtain ⟨r0, rest0, hcons⟩ :
      ∃ a l, synthRows ladder now 0 sells = a :: l := by
    cases hr : synthRows ladder now 0 sells with
    | nil =>
      rw [hr] at hlen
      exact absurd (List.eq_nil_of_length_eq_zero hlen.symm) hne
    | cons a l => exact ⟨a, l, rfl⟩
  have hmax : ((synthRows ladder now 0 sells).map TradeRow.level).max? =
      some ((rest0.map TradeRow.level).foldl max r0.level) := by
    rw [hcons]
    rfl
  refine ⟨spec_build_state (synthRows ladder now 0 sells), ?_, rfl, hlen,
    ?_, ?_, ?_⟩
  · unfold reconcile
    rw [hsynth2]
    dsimp only
    rw [hclose, hfilter]
    rw [hpos, synthRows_qty_sum ladder now sells 0, sub_self]
    rw [if_neg (by norm_num [TOLERANCE]), if_neg (by norm_num [TOLERANCE])]
  · intro i
    simpa using synthRows_getElem? ladder now sells 0 i
  · exact hprops
  · refine ⟨(rest0.map TradeRow.level).foldl max r0.level, ?_, ?_⟩
    · exact hmax
    · show (spec_build_state (synthRows ladder now 0 sells)).next_level = _
      unfold spec_build_state
      dsimp only
      rw [hfilter, hmax]

/-- C2 witness: two broker sells over the scenario ladder, with consistent
position, reconciled from the empty ledger. -/
theorem C2_reconciliation_convergence_witness :
    ∃ st, reconcile [100, 100, 50]
          [⟨5, 100, fl (101 / 2)⟩, ⟨6, 50, fl 40⟩] 150 (fl 49) 9 7 [] =
        Except.ok (st, []) ∧
      st.ledger = synthRows [100, 100, 50] 7 0
        [⟨5, 100, fl (101 / 2)⟩, ⟨6, 50, fl 40⟩] ∧
      st.ledger.length =
        ([⟨5, 100, fl (101 / 2)⟩, ⟨6, 50, fl 40⟩] :
          List BrokerSellOrder).length ∧
      (∀ i : ℕ, st.ledger[i]? =
        ((([⟨5, 100, fl (101 / 2)⟩, ⟨6, 50, fl 40⟩] :
          List BrokerSellOrder))[i]?).map (synthRow [100, 100, 50] 7 i)) ∧
      (∀ r ∈ st.ledger, r.status = TradeStatus.OPEN ∧ r.buy_order_id < 0 ∧
        ∃ o ∈ ([⟨5, 100, fl (101 / 2)⟩, ⟨6, 50, fl 40⟩] :
            List BrokerSellOrder),
          r.sell_order_id = some o.orderId ∧
          r.buy_quantity = o.quantity ∧
          r.buy_price = fdiv o.lmtPrice PROFIT_TARGET_PERCENT ∧
          r.level = (((inverse_level_lookup [100, 100, 50] o.quantity).getD 0
            : ℕ) : ℤ)) ∧
      (∃ m, (st.ledger.map TradeRow.level).max? = some m ∧
        st.next_level = m + 1) :=
  C2_reconciliation_convergence [100, 100, 50]
    [⟨5, 100, fl (101 / 2)⟩, ⟨6, 50, fl 40⟩] 150 (fl 49) 9 7
    (by simp) (by simp)
    (by
      intro o hm
      rcases List.mem_cons.mp hm with h | h
      · rw [h]; rfl
      · rw [List.mem_singleton.mp h]; rfl)
    (of_decide_eq_true (by with_unfolding_all exact rfl))

end TqqqBot
